import Mathlib

/-!
Shallow embedding of the TalentScout hiring-assistant repository:
`utils.py`, `questions_bank.py`, `llm.py`, `app.py`, and the
`talentscout-hiring-assistant-step1` duplicate of `app.py`.

Strings are modelled as Lean `String`s, manipulated through their `List Char`
representation.  Python case mapping, whitespace and digit classification are
modelled on the ASCII range, which covers every string literal and pattern
appearing in the repository.  Python float values are modelled exactly as
rationals (every numeric literal the extractors parse is a finite decimal).
-/

namespace TalentScout

/-- ASCII whitespace: the characters Python `str.strip` and the regex class
`\s` recognise in the ASCII range (space, tab, newline, carriage return,
vertical tab, form feed). -/
def pyIsSpace (c : Char) : Bool :=
  c == ' ' || c == '\t' || c == '\n' || c == '\r' || c == '\x0b' || c == '\x0c'

/-- Python `str.lower` on a character list (ASCII case mapping). -/
def pyLowerChars (l : List Char) : List Char := l.map Char.toLower

/-- Python `str.lower` (ASCII case mapping). -/
def pyLower (s : String) : String := String.mk (pyLowerChars s.toList)

/-- Python `str.strip()` on a character list: drop whitespace at both ends. -/
def pyStripChars (l : List Char) : List Char :=
  ((l.dropWhile pyIsSpace).reverse.dropWhile pyIsSpace).reverse

/-- Python `str.strip()`. -/
def pyStrip (s : String) : String := String.mk (pyStripChars s.toList)

/-- `leadsWith n h`: the list `n` is an initial segment of `h`. -/
def leadsWith : List Char → List Char → Bool
  | [], _ => true
  | _ :: _, [] => false
  | a :: n, b :: h => a == b && leadsWith n h

/-- Python substring test `n in h` over character lists. -/
def occursIn (n : List Char) : List Char → Bool
  | [] => leadsWith n []
  | h@(_ :: t) => leadsWith n h || occursIn n t

/-- Python substring test `sub in s` on strings. -/
def pyIn (sub s : String) : Bool := occursIn sub.toList s.toList

/-- Python `s.split(",")`: split at every comma, keeping empty fragments. -/
def splitComma : List Char → List (List Char)
  | [] => [[]]
  | c :: t =>
      let r := splitComma t
      if c == ',' then [] :: r
      else
        match r with
        | h :: t2 => (c :: h) :: t2
        | [] => [[c]]

/-! ## `questions_bank.py` -/

/-- The curated fallback bank of `questions_bank.py` (`BANK`), as an ordered
key/value list mirroring Python dict insertion order. -/
def BANK : List (String × List String) := [
  ("python", [
    "Explain list vs tuple and when to use each.",
    "What are list comprehensions and why are they useful?",
    "How does Python\x27s GIL affect multithreading?",
    "What is a generator? Show a simple example.",
    "Explain context managers and the \x27with\x27 statement."]),
  ("django", [
    "What are Django models and migrations?",
    "Explain Django\x27s MVT architecture.",
    "How do you optimize ORM queries in Django?",
    "What is middleware and a use case for custom middleware?",
    "How would you implement authentication in Django?"]),
  ("flask", [
    "How do blueprints help structure a Flask app?",
    "What is the difference between app.run debug and production WSGI servers?",
    "Explain request context and application context in Flask.",
    "How do you handle configuration and secrets in Flask?",
    "How would you add authentication/authorization in Flask?"]),
  ("sql", [
    "Explain INNER JOIN vs LEFT JOIN with a simple example.",
    "What are indexes and how can they speed up queries?",
    "How do you find slow queries and optimize them?",
    "Explain ACID properties in relational databases.",
    "What is normalization and when would you denormalize?"]),
  ("pandas", [
    "How do you handle missing values in pandas DataFrames?",
    "Explain vectorization and why it\x27s faster than loops in pandas.",
    "How do you merge/join DataFrames and when to use each?",
    "What is groupby and an example use case?",
    "How do you optimize memory usage in pandas?"]),
  ("numpy", [
    "Explain broadcasting in NumPy with an example.",
    "How do you create views vs copies and why does it matter?",
    "What is vectorization and why is it useful in NumPy?",
    "How do you compute the dot product and matrix multiplication?",
    "How to efficiently filter arrays by conditions?"]),
  ("pytorch", [
    "Explain autograd and computational graphs in PyTorch.",
    "What is the difference between Module and Tensor?",
    "How do you prevent overfitting in a PyTorch model?",
    "How do you move tensors between CPU and GPU?",
    "What is DataLoader and why is it useful?"]),
  ("tensorflow", [
    "What are eager execution and graph execution in TensorFlow?",
    "How do you save and load a trained model?",
    "How do you implement early stopping?",
    "What is tf.data and why is it useful?",
    "Explain difference between Keras Sequential and Functional API."]),
  ("ml", [
    "Explain bias-variance tradeoff with an example.",
    "How do you choose between classification and regression models?",
    "What is cross-validation and why is it important?",
    "Explain precision, recall, and F1-score.",
    "How do you handle class imbalance?"]),
  ("javascript", [
    "Explain var vs let vs const.",
    "What are closures and a practical example?",
    "How does the event loop work in JS?",
    "Explain promise vs async/await.",
    "What is debounce vs throttle and a use case for each?"]),
  ("react", [
    "Explain state vs props.",
    "What are hooks and why use useEffect?",
    "How do you optimize performance in React apps?",
    "What is reconciliation and keys in lists?",
    "How do you manage global state?"])]

/-- The generic question list `generate_fallback_questions` falls back to
when no technology matched. -/
def genericQuestions : List String := [
  "Explain a challenging problem you solved with your preferred technology.",
  "How do you test and debug your code effectively?",
  "Describe a time you optimized performance in an application.",
  "How do you ensure code quality and readability?",
  "What best practices do you follow in your projects?"]

/-- The token list `[t.strip().lower() for t in tech_stack.split(",")]`. -/
def techTokens (tech_stack : String) : List String :=
  (splitComma tech_stack.toList).map (fun t => String.mk (pyLowerChars (pyStripChars t)))

/-- The `for t in techs` loop of `generate_fallback_questions`: the inner
`for key in BANK.keys()` with `break` is the first bank key that is a
substring of `t` and is not yet in `seen`; after a match (and also after a
miss) the loop stops once `out` holds at least `max_questions` entries. -/
def fbLoop (max_questions : Nat) : List String → List String → List String → List String
  | [], _, out => out
  | t :: rest, seen, out =>
      match BANK.find? (fun kv => occursIn kv.1.toList t.toList && !(seen.contains kv.1)) with
      | some kv =>
          let out2 := out ++ kv.2.take max_questions
          if max_questions ≤ out2.length then out2
          else fbLoop max_questions rest (kv.1 :: seen) out2
      | none =>
          if max_questions ≤ out.length then out
          else fbLoop max_questions rest seen out

/-- `generate_fallback_questions(tech_stack, max_questions)` of
`questions_bank.py` (the Python default for `max_questions` is 5). -/
def generate_fallback_questions (tech_stack : String) (max_questions : Nat) : List String :=
  let out := fbLoop max_questions (techTokens tech_stack) [] []
  let out := if out.isEmpty then genericQuestions else out
  out.take max_questions

/-! ## `utils.py`: regex patterns and extraction

`EMAIL_PATTERN  = [A-Za-z0-9._%+-]+@[A-Za-z0-9.-]+\.[A-Za-z]{2,}`
`PHONE_PATTERN  = (?:\+?\d{1,3}[-.\s]?)?(?:\d{10,})`
`EXPERIENCE_PATTERN = (\d+(\.\d+)?)\s*(?:years|yrs|year)?`

Each `.search` is modelled as: try an anchored match at every position from
the left; at a position, alternatives are tried in Python backtracking
preference order. -/

/-- The character class `[-.\s]` of `PHONE_PATTERN` (ASCII `\s`). -/
def sepClass (c : Char) : Bool := c == '-' || c == '.' || pyIsSpace c

/-- `countdown n = [n, n-1, ..., 1]`. -/
def countdown : Nat → List Nat
  | 0 => []
  | n + 1 => (n + 1) :: countdown n

/-- The tail `\d{10,}` of `PHONE_PATTERN`: a greedy run of at least ten
digits at the current position. -/
def phoneTail (rest : List Char) : Option (List Char) :=
  if 10 ≤ (rest.takeWhile Char.isDigit).length then
    some (rest.takeWhile Char.isDigit)
  else none

/-- `\+?` inside the prefix group of `PHONE_PATTERN`: consuming the plus is
preferred when one is present. -/
def plusOptions (s : List Char) : List (List Char × List Char) :=
  match s with
  | '+' :: t => [(['+'], t), ([], s)]
  | _ => [([], s)]

/-- `[-.\s]?` inside the prefix group of `PHONE_PATTERN`: consuming a
separator is preferred when one is present. -/
def sepOptions (con rest : List Char) : List (List Char × List Char) :=
  match rest with
  | c :: t => if sepClass c then [(con ++ [c], t), (con, rest)] else [(con, rest)]
  | [] => [(con, rest)]

/-- All ways of matching the optional prefix group `(?:\+?\d{1,3}[-.\s]?)?`
at the start of `s`, as (consumed, remainder) pairs in backtracking
preference order: group taken before group skipped, plus before no plus,
more country-code digits before fewer (greedy `\d{1,3}`, which needs at
least one digit), separator before no separator. -/
def phoneCands (s : List Char) : List (List Char × List Char) :=
  ((plusOptions s).flatMap (fun pr =>
    (countdown (min (pr.2.takeWhile Char.isDigit).length 3)).flatMap (fun n =>
      sepOptions (pr.1 ++ pr.2.take n) (pr.2.drop n))))
  ++ [([], s)]

/-- A match of `PHONE_PATTERN` anchored at the start of `s`: the first
prefix alternative after which `\d{10,}` matches. -/
def phoneFrom (s : List Char) : Option (List Char) :=
  (phoneCands s).findSome? (fun pr => (phoneTail pr.2).map (pr.1 ++ ·))

/-- `PHONE_PATTERN.search`: leftmost matching start position (the pattern
cannot match the empty suffix, since it always needs ten digits). -/
def phoneSearch : List Char → Option (List Char)
  | [] => none
  | s@(_ :: t) =>
      match phoneFrom s with
      | some m => some m
      | none => phoneSearch t

/-- `extract_phone` of `utils.py`: search `PHONE_PATTERN`; on a match, drop
every character that is not a digit or `+` (`re.sub(r"[^\d+]", "", ...)`)
and keep the result if it has at least 10 characters. -/
def extract_phone (text : String) : Option String :=
  match phoneSearch text.toList with
  | some m =>
      let num := m.filter (fun c => c.isDigit || c == '+')
      if 10 ≤ num.length then some (String.mk num) else none
  | none => none

/-- The local-part class `[A-Za-z0-9._%+-]` of `EMAIL_PATTERN`. -/
def localClass (c : Char) : Bool :=
  c.isAlphanum || c == '.' || c == '_' || c == '%' || c == '+' || c == '-'

/-- The domain class `[A-Za-z0-9.-]` of `EMAIL_PATTERN`. -/
def domainClass (c : Char) : Bool := c.isAlphanum || c == '.' || c == '-'

/-- One alternative of the domain backtracking of `EMAIL_PATTERN` after the
`@`: domain part `r.take j` (all inside the maximal domain-class run), the
literal dot at position `j`, then the greedy `[A-Za-z]{2,}`.  Returns the
total matched length after the `@` on success. -/
def emailDomainAt (r : List Char) (j : Nat) : Option Nat :=
  match (r.drop j).head? with
  | some '.' =>
      let tld := (r.drop (j + 1)).takeWhile Char.isAlpha
      if 2 ≤ tld.length then some (j + 1 + tld.length) else none
  | _ => none

/-- Try domain-part lengths `j, j-1, ..., 1` (the greedy `[A-Za-z0-9.-]+`
prefers the longest feasible domain part). -/
def emailDomainSearch (r : List Char) : Nat → Option Nat
  | 0 => none
  | j + 1 =>
      match emailDomainAt r (j + 1) with
      | some n => some n
      | none => emailDomainSearch r j

/-- A match of `EMAIL_PATTERN` anchored at the start of `s`.  The local part
`[A-Za-z0-9._%+-]+` is the maximal class run (shortening it can never expose
the `@`, which is outside the class); the first feasible domain-part length
below the maximal domain-class run is taken. -/
def emailFrom (s : List Char) : Option (List Char) :=
  let lp := s.takeWhile localClass
  if lp.isEmpty then none
  else
    match s.drop lp.length with
    | '@' :: r =>
        let dRun := r.takeWhile domainClass
        match emailDomainSearch r (dRun.length - 1) with
        | some n => some (lp ++ '@' :: r.take n)
        | none => none
    | _ => none

/-- `EMAIL_PATTERN.search`: leftmost matching start position. -/
def emailSearch : List Char → Option (List Char)
  | [] => none
  | s@(_ :: t) =>
      match emailFrom s with
      | some m => some m
      | none => emailSearch t

/-- `extract_email` of `utils.py`. -/
def extract_email (text : String) : Option String :=
  (emailSearch text.toList).map String.mk

/-- The optional group `(\.\d+)?` of `EXPERIENCE_PATTERN`: the fraction
digits contributed at the current position — the greedy digit run after a
dot when the dot is immediately followed by at least one digit, else
nothing (a dot with no digit after it is left unconsumed). -/
def expFracPart (rest : List Char) : List Char :=
  match rest with
  | '.' :: r2 => r2.takeWhile Char.isDigit
  | _ => []

/-- Group 1 of `EXPERIENCE_PATTERN`, `(\d+(\.\d+)?)`, anchored at the start
of `s`: the pattern only matches where a digit starts, `\d+` is the maximal
digit run, and `(\.\d+)?` extends it by `expFracPart`.  The trailing
`\s*(?:years|yrs|year)?` is entirely optional and never constrains the
match or group 1.  Returns (integer digits, fraction digits). -/
def expFrom (s : List Char) : Option (List Char × List Char) :=
  match s with
  | c :: _ =>
      if c.isDigit then
        let ip := s.takeWhile Char.isDigit
        some (ip, expFracPart (s.drop ip.length))
      else none
  | [] => none

/-- `EXPERIENCE_PATTERN.search`: leftmost matching start position (the
pattern, whose mandatory part is `\d+`, matches exactly at digits). -/
def expSearch : List Char → Option (List Char × List Char)
  | [] => none
  | s@(_ :: t) =>
      match expFrom s with
      | some m => some m
      | none => expSearch t

/-- Decimal value of a digit list. -/
def digitsToNat (ds : List Char) : Nat :=
  ds.foldl (fun a c => a * 10 + (c.toNat - 48)) 0

/-- `float(match.group(1))`, exactly as a rational; group 1 always has the
shape `digits` or `digits.digits`, so the `ValueError` branch of
`extract_experience` is unreachable. -/
def tokenToRat (ip fp : List Char) : ℚ :=
  (digitsToNat ip : ℚ) + (digitsToNat fp : ℚ) / (10 : ℚ) ^ fp.length

/-- `extract_experience` of `utils.py`. -/
def extract_experience (text : String) : Option ℚ :=
  (expSearch text.toList).map (fun m => tokenToRat m.1 m.2)

/-! ## `utils.py`: field handling, exit detection, secure storage -/

/-- Python truthiness of an optional string (`None` and `""` are falsy). -/
def truthy : Option String → Bool
  | none => false
  | some s => !s.isEmpty

/-- Python truthiness of an optional float (`None` and `0.0` are falsy). -/
def truthyQ : Option ℚ → Bool
  | none => false
  | some q => decide (q ≠ 0)

/-- The exit keyword list of `detect_exit`. -/
def exitWords : List String := ["exit", "quit", "stop", "bye", "goodbye", "end"]

/-- `detect_exit` of `utils.py`: `text.strip().lower() in exit_words` —
exact membership of the stripped, lower-cased whole text. -/
def detect_exit (text : String) : Bool :=
  exitWords.contains (pyLower (pyStrip text))

/-- `safe_display` of `utils.py`. -/
def safe_display (value : Option String) : String :=
  match value with
  | some s => if s.isEmpty then "⚠️ Missing" else s
  | none => "⚠️ Missing"

/-- The pydantic `Candidate` model of `app.py` (identical in the step1
variant): seven optional fields; `experience` is an optional float, modelled
as a rational. -/
structure Candidate where
  full_name : Option String
  email : Option String
  phone : Option String
  experience : Option ℚ
  position : Option String
  location : Option String
  tech_stack : Option String
deriving DecidableEq

/-- The initial `Candidate()` with every field `None`. -/
def emptyCandidate : Candidate := ⟨none, none, none, none, none, none, none⟩

/-- `next_missing_field` of `utils.py`, applied (as in the apps) to
`candidate.dict()`: scan the fixed field order and return the first field
whose dict value is Python-falsy (`None`, `""`, or for experience also
`0.0`, since `not c.get(f)` is truthiness, not presence). -/
def next_missing_field (c : Candidate) : Option String :=
  if !truthy c.full_name then some "full_name"
  else if !truthy c.email then some "email"
  else if !truthy c.phone then some "phone"
  else if !truthyQ c.experience then some "experience"
  else if !truthy c.position then some "position"
  else if !truthy c.location then some "location"
  else if !truthy c.tech_stack then some "tech_stack"
  else none

/-- The two environment variables read by `secure_store`. -/
structure StoreEnv where
  enable_encryption : Option String
  encryption_key : Option String

/-- `secure_store` of `utils.py` over the candidate dict.  `data.copy()`
makes every update act on a fresh dict, so the argument dict itself is never
changed; the Fernet cipher is abstracted as the function `enc` mapping a key
and a plaintext to the ciphertext.  `raise RuntimeError` is modelled as
`Except.error` carrying the message. -/
def secure_store (env : StoreEnv) (enc : String → String → String)
    (data : Candidate) : Except String Candidate :=
  if !(pyLower (env.enable_encryption.getD "") == "true") then .ok data
  else if !truthy env.encryption_key then
    .error "Encryption enabled but no ENCRYPTION_KEY provided."
  else
    let key := env.encryption_key.getD ""
    let stored := data
    let stored := if truthy stored.email then
        { stored with email := stored.email.map (enc key) } else stored
    let stored := if truthy stored.phone then
        { stored with phone := stored.phone.map (enc key) } else stored
    .ok stored

/-! ## `app.py`: completion and accumulation -/

/-- `Candidate.is_complete` of `app.py`: all string fields truthy and
`self.experience is not None` (so `0.0` counts as present). -/
def Candidate.is_complete (c : Candidate) : Bool :=
  truthy c.full_name && truthy c.email && truthy c.phone &&
  c.experience.isSome && truthy c.position && truthy c.location &&
  truthy c.tech_stack

/-- Position keywords of the `app.py` accumulation loop. -/
def positionKeywords : List String :=
  ["engineer", "developer", "scientist", "analyst", "intern", "manager"]

/-- Tech-stack keywords of the `app.py` accumulation loop. -/
def techKeywords : List String :=
  ["python", "java", "sql", "django", "flask", "react", "node", "pytorch",
   "tensorflow", "pandas", "numpy", "ml", "scikit", "mongodb", "mysql",
   "postgres"]

/-- Location keywords of the `app.py` accumulation loop. -/
def locationKeywords : List String :=
  ["nagpur", "pune", "mumbai", "delhi", "bangalore", "hyderabad", "remote",
   "india", "usa", "uk", "london", "new york"]

/-- Python `str.title()` (ASCII): a letter that follows a non-letter is
uppercased, a letter that follows a letter is lowercased. -/
def pyTitleGo : Bool → List Char → List Char
  | _, [] => []
  | prev, c :: t =>
      if c.isAlpha then (if prev then c.toLower else c.toUpper) :: pyTitleGo true t
      else c :: pyTitleGo false t

/-- Python `str.title()`. -/
def pyTitle (s : String) : String := String.mk (pyTitleGo false s.toList)

/-- One iteration of the `for piece in ...` accumulation loop of `app.py`
(lines 298–326): extractor priority email → phone → experience, each with a
field-currently-empty guard and `continue`, then keyword heuristics for
position, tech stack and location, then the two-word full-name fallback. -/
def processPiece (cand : Candidate) (piece : String) : Candidate :=
  let email := extract_email piece
  let phone := extract_phone piece
  let exp := extract_experience piece
  if truthy email && !truthy cand.email then { cand with email := email }
  else if truthy phone && !truthy cand.phone then { cand with phone := phone }
  else if exp.isSome && cand.experience.isNone then { cand with experience := exp }
  else
    let lower := pyLower piece
    if positionKeywords.any (fun k => pyIn k lower) && !truthy cand.position then
      { cand with position := some piece }
    else if techKeywords.any (fun k => pyIn k lower) && !truthy cand.tech_stack then
      { cand with tech_stack := some piece }
    else if locationKeywords.any (fun k => pyIn k lower) && !truthy cand.location then
      { cand with location := some piece }
    else if pyIn " " piece && !truthy cand.full_name &&
        !(piece.toList.any Char.isDigit) then
      { cand with full_name := some (pyTitle piece) }
    else cand

/-- The piece list
`[p.strip() for p in user_input.replace("\n", ",").split(",") if p.strip()]`. -/
def turnPieces (user_input : String) : List String :=
  ((splitComma (user_input.toList.map (fun c => if c == '\n' then ',' else c))).map
    (fun p => String.mk (pyStripChars p))).filter (fun p => !p.isEmpty)

/-- The whole per-turn accumulation loop of `app.py`. -/
def accumulate (cand : Candidate) (user_input : String) : Candidate :=
  (turnPieces user_input).foldl processPiece cand

/-- `next_recruiter_question` of `app.py`: fixed prompt for the first
missing field (string fields by truthiness, experience by `is None`),
`None` when the profile is complete. -/
def next_recruiter_question (cand : Candidate) : Option String :=
  if !truthy cand.full_name then
    some "Great to meet you! What’s your **full name**?"
  else if !truthy cand.email then
    some "Thanks! What’s the best **email address** to contact you?"
  else if !truthy cand.phone then
    some "Perfect. Could you provide your **phone number** (with country code if possible)?"
  else if cand.experience.isNone then
    some "Nice. How many **years of professional experience** do you have?"
  else if !truthy cand.position then
    some "Got it. What **position or role** are you applying for?"
  else if !truthy cand.location then
    some "Thanks. Where are you currently **located** (city/country)?"
  else if !truthy cand.tech_stack then
    some "Awesome. Please list your **tech stack** — languages, frameworks, databases, and tools."
  else none

/-! ## step1 `app.py`: `enrich_candidate_from_text` -/

/-- Position keywords of the step1 variant (order differs from the main
app). -/
def positionKeywords1 : List String :=
  ["engineer", "developer", "scientist", "analyst", "manager", "intern"]

/-- Tech keywords of the step1 variant. -/
def techKeywords1 : List String :=
  ["python", "java", "sql", "django", "flask", "react", "node", "pytorch",
   "tensorflow", "pandas", "numpy", "ml", "machine learning"]

/-- Location keywords of the step1 variant. -/
def locationKeywords1 : List String :=
  ["nagpur", "pune", "mumbai", "delhi", "bangalore", "bengaluru", "hyderabad",
   "remote", "india", "usa", "uk", "europe"]

/-- Statement `if email: c.email = email` of `enrich_candidate_from_text`
(unconditional overwrite whenever extraction succeeded). -/
def enrichEmail (c : Candidate) (email : Option String) : Candidate :=
  if truthy email then { c with email := email } else c

/-- Statement `if phone: c.phone = phone`. -/
def enrichPhone (c : Candidate) (phone : Option String) : Candidate :=
  if truthy phone then { c with phone := phone } else c

/-- Statement `if exp is not None: c.experience = exp`. -/
def enrichExp (c : Candidate) (exp : Option ℚ) : Candidate :=
  if exp.isSome then { c with experience := exp } else c

/-- Statement `if any(k in lower ...): c.position = (c.position or text)`. -/
def enrichPosition (c : Candidate) (text lower : String) : Candidate :=
  if positionKeywords1.any (fun k => pyIn k lower) then
    { c with position := if truthy c.position then c.position else some text }
  else c

/-- Statement `if "tech stack" in lower or any(...): c.tech_stack =
(c.tech_stack or text)`. -/
def enrichTech (c : Candidate) (text lower : String) : Candidate :=
  if pyIn "tech stack" lower || techKeywords1.any (fun k => pyIn k lower) then
    { c with tech_stack := if truthy c.tech_stack then c.tech_stack else some text }
  else c

/-- Statement `if "location" in lower or any(...): c.location =
(c.location or text)`. -/
def enrichLocation (c : Candidate) (text lower : String) : Candidate :=
  if pyIn "location" lower || locationKeywords1.any (fun k => pyIn k lower) then
    { c with location := if truthy c.location then c.location else some text }
  else c

/-- Statement `if " " in text.strip() and not c.full_name and not email and
not phone: c.full_name = text.strip().title()`. -/
def enrichName (c : Candidate) (text : String) (email phone : Option String) :
    Candidate :=
  if pyIn " " (pyStrip text) && !truthy c.full_name && !truthy email &&
      !truthy phone then
    { c with full_name := some (pyTitle (pyStrip text)) }
  else c

/-- `enrich_candidate_from_text` of the step1 `app.py` (lines 215–246):
email, phone and experience are assigned unconditionally whenever the
extraction succeeded; position, tech stack and location keep an existing
truthy value (`c.position or text`, etc., assigning the whole turn text);
the full-name guess fires only when unset and when neither an email nor a
phone was extracted from the turn.  Each statement of the Python body is
one of the step functions above, applied in source order. -/
def enrich_candidate_from_text (c : Candidate) (text : String) : Candidate :=
  let email := extract_email text
  let phone := extract_phone text
  let exp := extract_experience text
  let lower := pyLower text
  enrichName
    (enrichLocation
      (enrichTech
        (enrichPosition
          (enrichExp (enrichPhone (enrichEmail c email) phone) exp)
          text lower)
        text lower)
      text lower)
    text email phone

/-! ## `llm.py` -/

/-- A Python exception, split into `LLMUnavailable` and every other
exception class. -/
inductive PyExc where
  | llmUnavailable (msg : String)
  | otherExc (msg : String)
deriving DecidableEq

/-- Outcome of the OpenAI chat-completions call, as observed by `chat`. -/
inductive ApiOutcome where
  | success (content : Option String)
  | noChoices
  | transportError (msg : String)
deriving DecidableEq

/-- The environment `chat` runs in: whether the `openai` package imports,
the `OPENAI_API_KEY` value, and what the API call would do. -/
structure LlmEnv where
  openaiInstalled : Bool
  apiKey : Option String
  outcome : ApiOutcome
deriving DecidableEq

/-- `str(e)` of a modelled exception. -/
def excMessage : PyExc → String
  | .llmUnavailable m => m
  | .otherExc m => m

/-- `_openai_client` of `llm.py`: raises `LLMUnavailable` when the package
is missing or the key is unset or empty (`if not api_key`). -/
def openai_client (env : LlmEnv) : Except PyExc Unit :=
  if !env.openaiInstalled then .error (.llmUnavailable "openai package not installed")
  else if !truthy env.apiKey then .error (.llmUnavailable "OPENAI_API_KEY not set")
  else .ok ()

/-- A chat message dict (`{"role": ..., "content": ...}`). -/
structure Msg where
  role : String
  content : String
deriving DecidableEq

/-- The `try` body of `chat` in `llm.py`: client construction, message
assembly, the API call, and `resp.choices[0].message.content.strip()`.  An
empty `choices` list (`IndexError`), a `None` content (`AttributeError` on
`.strip()`) and a transport failure are ordinary exceptions. -/
def chatBody (env : LlmEnv) (system_prompt : String) (messages : List Msg) :
    Except PyExc String := do
  let _ ← openai_client env
  let _msgs := if (match messages.head? with
      | some m => m.role == "system"
      | none => false) then messages
    else ⟨"system", system_prompt⟩ :: messages
  match env.outcome with
  | .transportError m => .error (.otherExc m)
  | .noChoices => .error (.otherExc "list index out of range")
  | .success none => .error (.otherExc "NoneType has no strip")
  | .success (some content) => .ok (pyStrip content)

/-- `chat` of `llm.py`: every exception raised by the body is caught by
`except Exception` and re-raised as `LLMUnavailable(str(e))`. -/
def chat (env : LlmEnv) (system_prompt : String) (messages : List Msg) :
    Except PyExc String :=
  match chatBody env system_prompt messages with
  | .ok s => .ok s
  | .error e => .error (.llmUnavailable (excMessage e))

/-! ## `app.py`: per-turn dialogue handler -/

/-- `SYSTEM_PROMPT` of `prompts.py`. -/
def SYSTEM_PROMPT : String :=
  "\nYou are TalentScout, a professional hiring assistant for a tech recruitment agency.\nGoals:\n- Greet candidates, explain purpose, and collect essential info: full name, email, phone, years of experience, desired position, location, tech stack.\n- Ask for one missing field at a time. If the user provides multiple fields at once, acknowledge and extract all.\n- After tech stack is provided, generate 3–5 concise technical questions tailored to that stack.\n- Keep conversation focused on hiring. Provide helpful fallbacks when input is unclear.\n- Support polite, professional tone. If the user uses a non‑English language, mirror their language if possible.\n- If the user says an ending keyword (exit, quit, stop, bye, goodbye, end), end gracefully.\n"

/-- The fixed deterministic reply of the `except LLMUnavailable` branch of
`app.py`. -/
def fallbackReply : String :=
  "Thanks! Please answer the questions above. Type **exit** whenever you’re done."

/-- The tech-question bundle message: header plus
`"\n".join([f"{i+1}. {q}" ...])`. -/
def techQuestionsMessage (qs : List String) : String :=
  "Great! Based on your tech stack, here are some questions:\n" ++
  String.intercalate "\n" (((List.range qs.length).zip qs).map
    (fun p => toString (p.1 + 1) ++ ". " ++ p.2))

/-- Python `messages[-5:]`. -/
def lastFive (ms : List Msg) : List Msg := ms.drop (ms.length - 5)

/-- The `try: reply = chat(...) except LLMUnavailable: reply = ...` block of
`app.py` (lines 346–351): the system prompt is prepended to the last five
session messages; only `LLMUnavailable` is caught and replaced by the fixed
fallback reply — any other exception would propagate. -/
def llmReplyBranch (env : LlmEnv) (messages : List Msg) : Except PyExc String :=
  match chat env SYSTEM_PROMPT (⟨"system", SYSTEM_PROMPT⟩ :: lastFive messages) with
  | .ok reply => .ok reply
  | .error (.llmUnavailable _) => .ok fallbackReply
  | .error e => .error e

/-- The Streamlit session state of `app.py` touched by the chat handler. -/
structure AppState where
  candidate : Candidate
  messages : List Msg
  asked_tech_questions : Bool
  last_input : Option String
deriving DecidableEq

/-- Session state at conversation start: empty candidate, the greeting
message, one-shot flag down, no previous input. -/
def initialState : AppState :=
  { candidate := emptyCandidate
    messages := [⟨"assistant",
      "👋 Hi! I’m TalentScout, your virtual recruiter. Let’s start with the basics — what’s your **full name**?"⟩]
    asked_tech_questions := false
    last_input := none }

/-- What a processed turn produced. -/
inductive TurnOut where
  | skipped
  | exited
  | askedField
  | techQuestions
  | freeform
deriving DecidableEq

/-- One execution of the chat-input handler of `app.py` (lines 288–355):
the duplicate-input gate, the exit check (`show_exit_screen` halts the
script with no further state change), the accumulation loop, and the
three-way reply decision.  `env` supplies the OpenAI behaviour for this
turn.  A Python exception other than the caught `LLMUnavailable` would
abort the script run; that is the `Except.error` case. -/
def handleTurn (st : AppState) (user_input : String) (env : LlmEnv) :
    Except PyExc (AppState × TurnOut) :=
  if user_input.isEmpty || st.last_input == some user_input then .ok (st, .skipped)
  else
    let st := { st with last_input := some user_input,
                        messages := st.messages ++ [⟨"user", user_input⟩] }
    if detect_exit user_input then .ok (st, .exited)
    else
      let cand := accumulate st.candidate user_input
      match next_recruiter_question cand with
      | some q =>
          .ok ({ st with candidate := cand,
                         messages := st.messages ++ [⟨"assistant", q⟩] }, .askedField)
      | none =>
          if !st.asked_tech_questions then
            let qs := generate_fallback_questions (cand.tech_stack.getD "") 5
            .ok ({ st with candidate := cand,
                           asked_tech_questions := true,
                           messages := st.messages ++
                             [⟨"assistant", techQuestionsMessage qs⟩] },
                 .techQuestions)
          else
            match llmReplyBranch env st.messages with
            | .ok reply =>
                .ok ({ st with candidate := cand,
                               messages := st.messages ++ [⟨"assistant", reply⟩] },
                     .freeform)
            | .error e => .error e

/-- Run a sequence of turns, recording for each turn its classification and
the candidate as the turn left it. -/
def runTrace : AppState → List (String × LlmEnv) →
    Except PyExc (AppState × List (TurnOut × Candidate))
  | st, [] => .ok (st, [])
  | st, (i, env) :: rest =>
      match handleTurn st i env with
      | .error e => .error e
      | .ok (st', out) =>
          match runTrace st' rest with
          | .error e => .error e
          | .ok (stf, outs) => .ok (stf, (out, st'.candidate) :: outs)

/-! ## Helper notions used by the claim statements -/

/-- Look up a technology key in `BANK` (its canned question list, `[]` for
an unknown key). -/
def bankQuestions (key : String) : List String :=
  ((BANK.find? (fun kv => kv.1 == key)).map (fun kv => kv.2)).getD []

/-! ## Claim C1 -/

/-- C1 as frozen is false: `generate_fallback_questions("Python, SQL")`
contains no question from the "sql" registry — the "python" match alone
already fills the 5-question cap, so the loop breaks before "sql" is
considered. -/
theorem C1_counterexample :
    ¬ ∃ q, q ∈ bankQuestions "sql" ∧
      q ∈ generate_fallback_questions "Python, SQL" 5 := by decide

/-- C1 (amended): `generate_fallback_questions("Python, SQL")` returns
between 1 and 5 questions and includes at least one question from the
"python" registry, but none from the "sql" registry: it is exactly the
5-question python list, because the first match fills the default cap of 5.
`generate_fallback_questions("Cobol")` (no registry match) returns the
fixed 5-item generic list. -/
theorem C1_theorem :
    generate_fallback_questions "Python, SQL" 5 = bankQuestions "python" ∧
    1 ≤ (generate_fallback_questions "Python, SQL" 5).length ∧
    (generate_fallback_questions "Python, SQL" 5).length ≤ 5 ∧
    (∃ q, q ∈ bankQuestions "python" ∧
      q ∈ generate_fallback_questions "Python, SQL" 5) ∧
    (∀ q ∈ bankQuestions "sql", q ∉ generate_fallback_questions "Python, SQL" 5) ∧
    generate_fallback_questions "Cobol" 5 = genericQuestions := by
  refine ⟨by decide, by decide, by decide, by decide, by decide, by decide⟩

/-! ## Claim C9 -/

/-- C9: `detect_exit text` is true exactly when the trimmed, lower-cased
whole text equals one of exit, quit, stop, bye, goodbye, end (the
exact-match variant); in particular `detect_exit "bye"` is true and
`detect_exit "I'll reply by Friday"` is false. -/
theorem C9_theorem :
    (∀ text : String, detect_exit text = true ↔ pyLower (pyStrip text) ∈ exitWords) ∧
    detect_exit "bye" = true ∧
    detect_exit "I\x27ll reply by Friday" = false := by
  refine ⟨fun text => ?_, by decide, by decide⟩
  simp [detect_exit, List.contains_iff_exists_mem_beq, beq_iff_eq]

/-! ## Claim C3 -/

/-- A profile whose experience is the float `0.0` and whose six other
fields are non-empty. -/
def expZeroProfile : Candidate :=
  ⟨some "John Doe", some "john@x.com", some "+14155558899", some 0,
   some "Data Scientist", some "Pune", some "Python"⟩

/-- C3 as frozen is false: on the experience-0 profile,
`Candidate.is_complete` is true (it checks `is not None`) but
`next_missing_field` is `some "experience"`, not none (it checks
truthiness, and `0.0` is falsy), so the claimed equivalence fails. -/
theorem C3_counterexample :
    ¬ (expZeroProfile.is_complete = true ↔
        next_missing_field expZeroProfile = none) := by decide

/-- C3 (amended): `is_complete` agrees with `next_missing_field` returning
none on every profile whose experience is not the float 0; on a profile
with experience equal to 0 and the other six fields non-empty,
`is_complete` is true (presence, not truthiness) while `next_missing_field`
still reports "experience". -/
theorem C3_theorem :
    (∀ c : Candidate, c.experience ≠ some 0 →
      (c.is_complete = true ↔ next_missing_field c = none)) ∧
    expZeroProfile.is_complete = true ∧
    next_missing_field expZeroProfile = some "experience" := by
  refine ⟨fun c h => ?_, by decide, by decide⟩
  have hq : truthyQ c.experience = c.experience.isSome := by
    cases hc : c.experience with
    | none => rfl
    | some q =>
        have : q ≠ 0 := fun hq0 => h (hq0 ▸ hc)
        simp [truthyQ, this]
  simp only [Candidate.is_complete, next_missing_field, hq]
  cases truthy c.full_name <;> cases truthy c.email <;> cases truthy c.phone <;>
    cases c.experience.isSome <;> cases truthy c.position <;>
    cases truthy c.location <;> cases truthy c.tech_stack <;> simp

/-- C3 witness: the amended equivalence applied to the all-empty profile. -/
theorem C3_witness :
    (emptyCandidate.is_complete = true ↔ next_missing_field emptyCandidate = none) ∧
    expZeroProfile.is_complete = true :=
  ⟨C3_theorem.1 emptyCandidate (by decide), C3_theorem.2.1⟩

/-! ## Claim C6 -/

/-- The anchored experience match succeeds exactly at a digit. -/
lemma expFrom_cons (c : Char) (t : List Char) :
    (expFrom (c :: t)).isSome = c.isDigit := by
  cases h : c.isDigit with
  | false => simp [expFrom, h]
  | true => simp [expFrom, h]

/-- The experience search succeeds exactly on text containing a digit. -/
lemma expSearch_isSome (s : List Char) :
    (expSearch s).isSome = s.any Char.isDigit := by
  induction s with
  | nil => rfl
  | cons c t ih =>
      rw [expSearch, List.any_cons]
      cases h : expFrom (c :: t) with
      | some m =>
          have hc : c.isDigit = true := by rw [← expFrom_cons c t, h]; rfl
          simp [hc]
      | none =>
          have hc : c.isDigit = false := by rw [← expFrom_cons c t, h]; rfl
          simp [hc, ih]

/-- Unfolding of `extract_experience` on a computed search result. -/
lemma extract_experience_eq {text : String} {ip fp : List Char}
    (h : expSearch text.toList = some (ip, fp)) :
    extract_experience text = some (tokenToRat ip fp) := by
  rw [extract_experience, h]; rfl

/-- On "5 apples and 3 years" the search stops at the leading 5. -/
lemma exp_five_apples :
    extract_experience "5 apples and 3 years" = some 5 := by
  have h := @extract_experience_eq "5 apples and 3 years" ['5'] [] (by decide)
  rw [h, tokenToRat]
  have h1 : digitsToNat ['5'] = 5 := by decide
  have h2 : digitsToNat [] = 0 := by decide
  rw [h1, h2]; norm_num

/-- C6 as frozen is false: `extract_experience` has no preference for a
number annotated with "years" — on "5 apples and 3 years" it returns the
first numeric token 5, not the year-annotated 3, because the suffix
`\s*(?:years|yrs|year)?` of `EXPERIENCE_PATTERN` is entirely optional. -/
theorem C6_counterexample :
    extract_experience "5 apples and 3 years" = some 5 ∧
    extract_experience "5 apples and 3 years" ≠ some 3 := by
  refine ⟨exp_five_apples, ?_⟩
  rw [exp_five_apples]
  intro h
  have h5 : (5 : ℚ) = 3 := Option.some.inj h
  norm_num at h5

/-- C6 (amended): `extract_experience` returns the value of the first
numeric token of the text, whether or not a year annotation follows (the
annotation in the pattern is optional and never influences which number is
chosen); it returns a value exactly when the text contains a digit.  The
three examples of the claim hold as stated. -/
theorem C6_theorem :
    (∀ text : String, (extract_experience text).isSome = text.toList.any Char.isDigit) ∧
    extract_experience "2.5 years" = some (5/2) ∧
    extract_experience "I have 3 yrs" = some 3 ∧
    extract_experience "no numbers here" = none ∧
    extract_experience "5 apples and 3 years" = some 5 := by
  refine ⟨fun text => ?_, ?_, ?_, by decide, exp_five_apples⟩
  · rw [extract_experience, Option.isSome_map']
    exact expSearch_isSome _
  · have h := @extract_experience_eq "2.5 years" ['2'] ['5'] (by decide)
    rw [h, tokenToRat]
    have h1 : digitsToNat ['2'] = 2 := by decide
    have h2 : digitsToNat ['5'] = 5 := by decide
    rw [h1, h2]; norm_num
  · have h := @extract_experience_eq "I have 3 yrs" ['3'] [] (by decide)
    rw [h, tokenToRat]
    have h1 : digitsToNat ['3'] = 3 := by decide
    have h2 : digitsToNat [] = 0 := by decide
    rw [h1, h2]; norm_num

/-! ## Claim C2 -/

/-- Some position of `l` starts a run of at least `n` consecutive digits. -/
def hasDigitRun (n : Nat) : List Char → Bool
  | [] => decide (n = 0)
  | s@(_ :: t) => decide (n ≤ (s.takeWhile Char.isDigit).length) || hasDigitRun n t

/-- Every remainder offered by the prefix-group alternatives is a suffix of
the input. -/
lemma sepOptions_suffix {con rest : List Char} {pr : List Char × List Char}
    (h : pr ∈ sepOptions con rest) : pr.2 <:+ rest := by
  cases rest with
  | nil =>
      simp only [sepOptions, List.mem_singleton] at h
      rw [h]
  | cons c t =>
      rw [sepOptions] at h
      by_cases hc : sepClass c = true
      · rw [if_pos hc] at h
        rcases List.mem_cons.mp h with h | h
        · rw [h]; exact List.suffix_cons c t
        · rw [List.mem_singleton.mp h]
      · rw [if_neg hc] at h
        rw [List.mem_singleton.mp h]

/-- Every remainder offered by the `\+?` alternatives is a suffix of the
input. -/
lemma plusOptions_suffix {s : List Char} {pq : List Char × List Char}
    (h : pq ∈ plusOptions s) : pq.2 <:+ s := by
  unfold plusOptions at h
  split at h
  · rcases List.mem_cons.mp h with h | h
    · rw [h]; exact List.suffix_cons _ _
    · simp only [List.mem_singleton] at h; rw [h]
  · simp only [List.mem_singleton] at h; rw [h]

/-- Every remainder in `phoneCands` is a suffix of the input. -/
lemma phoneCands_suffix {s : List Char} {pr : List Char × List Char}
    (h : pr ∈ phoneCands s) : pr.2 <:+ s := by
  rw [phoneCands] at h
  rcases List.mem_append.mp h with h | h
  · rcases List.mem_flatMap.mp h with ⟨pq, hpq, h2⟩
    rcases List.mem_flatMap.mp h2 with ⟨n, _, h3⟩
    exact ((sepOptions_suffix h3).trans (List.drop_suffix n pq.2)).trans
      (plusOptions_suffix hpq)
  · simp only [List.mem_singleton] at h; rw [h]

/-- What a successful `\d{10,}` tail tells us. -/
lemma phoneTail_eq {rest run : List Char} (h : phoneTail rest = some run) :
    10 ≤ run.length ∧ run = rest.takeWhile Char.isDigit := by
  unfold phoneTail at h
  split at h
  · cases h
    constructor
    · assumption
    · rfl
  · exact Option.noConfusion h

/-- A successful anchored phone match implies at least ten digit characters
in the input, and at least ten digit-or-plus characters in the match. -/
lemma phoneFrom_bounds {s m : List Char} (h : phoneFrom s = some m) :
    10 ≤ (s.filter Char.isDigit).length ∧
    10 ≤ (m.filter (fun c => c.isDigit || c == '+')).length := by
  obtain ⟨pr, hpr, hf⟩ := List.exists_of_findSome?_eq_some h
  cases ht : phoneTail pr.2 with
  | none => rw [ht] at hf; simp at hf
  | some run =>
      rw [ht] at hf
      simp only [Option.map_some'] at hf
      obtain ⟨h10, hrun⟩ := phoneTail_eq ht
      have hdig : ∀ a ∈ run, a.isDigit = true := fun a ha =>
        List.mem_takeWhile_imp (hrun ▸ ha)
      constructor
      · have hsub : List.Sublist run s :=
          (hrun ▸ List.takeWhile_sublist Char.isDigit).trans
            (phoneCands_suffix hpr).sublist
        have hfr : run.filter Char.isDigit = run :=
          List.filter_eq_self.mpr hdig
        have := (hsub.filter Char.isDigit).length_le
        rw [hfr] at this
        omega
      · have hfr : run.filter (fun c => c.isDigit || c == '+') = run :=
          List.filter_eq_self.mpr (fun a ha => by rw [hdig a ha]; rfl)
        rw [← Option.some.inj hf, List.filter_append, List.length_append, hfr]
        omega

/-- A successful phone search implies at least ten digit characters in the
text and at least ten digit-or-plus characters in the match. -/
lemma phoneSearch_bounds {l m : List Char} (h : phoneSearch l = some m) :
    10 ≤ (l.filter Char.isDigit).length ∧
    10 ≤ (m.filter (fun c => c.isDigit || c == '+')).length := by
  induction l with
  | nil => simp [phoneSearch] at h
  | cons c t ih =>
      rw [phoneSearch] at h
      cases hp : phoneFrom (c :: t) with
      | some m' =>
          rw [hp] at h
          cases h
          exact phoneFrom_bounds hp
      | none =>
          rw [hp] at h
          obtain ⟨h1, h2⟩ := ih h
          refine ⟨?_, h2⟩
          have : (t.filter Char.isDigit).length ≤
              ((c :: t).filter Char.isDigit).length := by
            rw [List.filter_cons]
            split <;> simp
          omega

/-- A run of ten digits at the head makes the anchored match succeed (the
group-skipped alternative `([], l)` is always among the candidates). -/
lemma phoneFrom_isSome_of_run {l : List Char}
    (h : 10 ≤ (l.takeWhile Char.isDigit).length) : (phoneFrom l).isSome := by
  rw [phoneFrom]
  refine List.findSome?_isSome_iff.mpr ⟨([], l), ?_, ?_⟩
  · exact List.mem_append_right _ (List.mem_singleton.mpr rfl)
  · simp only [phoneTail, h, if_pos]
    rfl

/-- A run of ten digits anywhere makes the phone search succeed. -/
lemma phoneSearch_isSome_of_run {l : List Char}
    (h : hasDigitRun 10 l = true) : (phoneSearch l).isSome := by
  induction l with
  | nil => simp [hasDigitRun] at h
  | cons c t ih =>
      rw [hasDigitRun, Bool.or_eq_true, decide_eq_true_eq] at h
      rw [phoneSearch]
      cases hp : phoneFrom (c :: t) with
      | some m => rfl
      | none =>
          rcases h with h | h
          · exact absurd (phoneFrom_isSome_of_run h) (by rw [hp]; simp)
          · exact ih h

/-- C2 as frozen is false: "+1 415 555 8899" is a digit run with a leading
plus and separators holding 11 digits once non-digits are stripped, yet
`extract_phone` returns none — `PHONE_PATTERN` demands its ten digits
consecutive and allows a single separator only after the country code. -/
theorem C2_counterexample :
    extract_phone "+1 415 555 8899" = none ∧
    10 ≤ (("+1 415 555 8899").toList.filter Char.isDigit).length := by decide

/-- C2 (amended): `extract_phone` returns a normalized string (digits and
any `+` kept, all separators dropped) of length at least 10 for every text
containing a run of at least ten consecutive digits — separators inside the
digits are not tolerated, only a leading `+`/country code with one
separator before the run — and returns none for every text with fewer than
ten digit characters in total. -/
theorem C2_theorem :
    (∀ s : String, hasDigitRun 10 s.toList = true →
      ∃ r : String, extract_phone s = some r ∧ 10 ≤ r.length) ∧
    (∀ s : String, (s.toList.filter Char.isDigit).length < 10 →
      extract_phone s = none) := by
  constructor
  · intro s h
    obtain ⟨m, hm⟩ := Option.isSome_iff_exists.mp (phoneSearch_isSome_of_run h)
    obtain ⟨-, h10⟩ := phoneSearch_bounds hm
    refine ⟨String.mk (m.filter (fun c => c.isDigit || c == '+')), ?_, ?_⟩
    · rw [extract_phone, hm]
      simp only [h10, if_pos]
    · rw [String.length_mk]
      exact h10
  · intro s h
    cases hm : phoneSearch s.toList with
    | none => rw [extract_phone, hm]
    | some m =>
        obtain ⟨h1, -⟩ := phoneSearch_bounds hm
        omega

/-- C2 witness: the amended theorem applied at "0123456789" (a ten-digit
run) and at "123" (fewer than ten digits). -/
theorem C2_witness :
    (∃ r : String, extract_phone "0123456789" = some r ∧ 10 ≤ r.length) ∧
    extract_phone "123" = none :=
  ⟨C2_theorem.1 "0123456789" (by decide), C2_theorem.2 "123" (by decide)⟩

/-! ## Claim C8 -/

/-- A sample profile with email and phone present, used to witness C8. -/
def sampleData : Candidate :=
  ⟨some "Jane Roe", some "jane@x.com", some "0123456789", some 2,
   some "Backend Engineer", some "London", some "Python"⟩

/-- C8: `secure_store` raises exactly when encryption is enabled
(`ENABLE_ENCRYPTION` lower-cases to "true") but no `ENCRYPTION_KEY` is
configured; returns its argument unchanged when encryption is disabled;
works on a copy, so the input dict is never changed (the model is pure and
`data.copy()` is explicit in the source); and when it encrypts, only the
email and phone entries are replaced, every other field being returned
unchanged. -/
theorem C8_theorem :
    (∀ (env : StoreEnv) (enc : String → String → String) (data : Candidate),
      pyLower (env.enable_encryption.getD "") = "true" →
      truthy env.encryption_key = false →
      secure_store env enc data =
        .error "Encryption enabled but no ENCRYPTION_KEY provided.") ∧
    (∀ (env : StoreEnv) (enc : String → String → String) (data : Candidate),
      pyLower (env.enable_encryption.getD "") ≠ "true" →
      secure_store env enc data = .ok data) ∧
    (∀ (env : StoreEnv) (enc : String → String → String) (data : Candidate),
      pyLower (env.enable_encryption.getD "") = "true" →
      truthy env.encryption_key = true →
      secure_store env enc data = .ok { data with
        email := if truthy data.email then
            data.email.map (enc (env.encryption_key.getD "")) else data.email,
        phone := if truthy data.phone then
            data.phone.map (enc (env.encryption_key.getD "")) else data.phone }) ∧
    (∀ (env : StoreEnv) (enc : String → String → String) (data r : Candidate),
      secure_store env enc data = .ok r →
      r.full_name = data.full_name ∧ r.experience = data.experience ∧
      r.position = data.position ∧ r.location = data.location ∧
      r.tech_stack = data.tech_stack) := by
  refine ⟨?_, ?_, ?_, ?_⟩
  · intro env enc data h hk
    simp [secure_store, h, hk]
  · intro env enc data h
    simp [secure_store, h]
  · intro env enc data h hk
    cases he : truthy data.email <;> cases hp : truthy data.phone <;>
      simp [secure_store, h, hk, he, hp]
  · intro env enc data r h
    by_cases hc : pyLower (env.enable_encryption.getD "") = "true"
    · by_cases hk : truthy env.encryption_key = true
      · cases he : truthy data.email <;> cases hp : truthy data.phone <;>
          simp [secure_store, hc, hk, he, hp] at h <;>
            rw [← h] <;> exact ⟨rfl, rfl, rfl, rfl, rfl⟩
      · simp [secure_store, hc, Bool.eq_false_iff.mpr hk] at h
    · simp [secure_store, hc] at h
      rw [← h]
      exact ⟨rfl, rfl, rfl, rfl, rfl⟩

/-- C8 witness: the three configurations at concrete inputs — enabled with
no key raises, disabled returns the input unchanged, enabled with a key
encrypts only email and phone. -/
theorem C8_witness :
    secure_store ⟨some "true", none⟩ (fun _ s => s ++ "!") sampleData =
      .error "Encryption enabled but no ENCRYPTION_KEY provided." ∧
    secure_store ⟨none, some "k"⟩ (fun _ s => s ++ "!") sampleData = .ok sampleData ∧
    secure_store ⟨some "True", some "k"⟩ (fun _ s => s ++ "!") sampleData =
      .ok { sampleData with
        email := if truthy sampleData.email then
            sampleData.email.map ((fun _ s => s ++ "!") ((some "k").getD "")) else sampleData.email,
        phone := if truthy sampleData.phone then
            sampleData.phone.map ((fun _ s => s ++ "!") ((some "k").getD "")) else sampleData.phone } :=
  ⟨C8_theorem.1 ⟨some "true", none⟩ _ sampleData (by decide) (by decide),
   C8_theorem.2.1 ⟨none, some "k"⟩ _ sampleData (by decide),
   C8_theorem.2.2.1 ⟨some "True", some "k"⟩ _ sampleData (by decide) (by decide)⟩

/-! ## Claim C7 -/

/-- C7: the `chat` wrapper can only fail with `LLMUnavailable` — every
underlying failure (missing package, missing key, transport error, empty
choices, malformed content) is converted — the call-site branch catches it
and substitutes the fixed deterministic fallback reply, and consequently the
per-turn handler never lets a failure escape to the session. -/
theorem C7_theorem :
    (∀ (env : LlmEnv) (sp : String) (ms : List Msg),
      (∃ s, chat env sp ms = .ok s) ∨
      (∃ msg, chat env sp ms = .error (.llmUnavailable msg))) ∧
    (∀ (env : LlmEnv) (ms : List Msg),
      ∃ reply, llmReplyBranch env ms = .ok reply) ∧
    (∀ (env : LlmEnv) (ms : List Msg) (e : PyExc),
      chat env SYSTEM_PROMPT (⟨"system", SYSTEM_PROMPT⟩ :: lastFive ms) = .error e →
      llmReplyBranch env ms = .ok fallbackReply) ∧
    (∀ (st : AppState) (input : String) (env : LlmEnv),
      ∃ r, handleTurn st input env = .ok r) := by
  have hchat : ∀ (env : LlmEnv) (sp : String) (ms : List Msg),
      (∃ s, chat env sp ms = .ok s) ∨
      (∃ msg, chat env sp ms = .error (.llmUnavailable msg)) := by
    intro env sp ms
    cases h : chatBody env sp ms with
    | ok s => exact Or.inl ⟨s, by rw [chat, h]⟩
    | error e => exact Or.inr ⟨excMessage e, by rw [chat, h]⟩
  have hbranch : ∀ (env : LlmEnv) (ms : List Msg),
      ∃ reply, llmReplyBranch env ms = .ok reply := by
    intro env ms
    rcases hchat env SYSTEM_PROMPT (⟨"system", SYSTEM_PROMPT⟩ :: lastFive ms) with
      ⟨s, hs⟩ | ⟨msg, hm⟩
    · exact ⟨s, by rw [llmReplyBranch, hs]⟩
    · exact ⟨fallbackReply, by rw [llmReplyBranch, hm]⟩
  refine ⟨hchat, hbranch, ?_, ?_⟩
  · intro env ms e he
    rcases hchat env SYSTEM_PROMPT (⟨"system", SYSTEM_PROMPT⟩ :: lastFive ms) with
      ⟨s, hs⟩ | ⟨msg, hm⟩
    · rw [hs] at he; exact Except.noConfusion he
    · rw [llmReplyBranch, hm]
  · intro st input env
    simp only [handleTurn]
    split
    · exact ⟨_, rfl⟩
    · split
      · exact ⟨_, rfl⟩
      · split
        · exact ⟨_, rfl⟩
        · split
          · exact ⟨_, rfl⟩
          · obtain ⟨reply, hr⟩ := hbranch env (st.messages ++ [⟨"user", input⟩])
            rw [hr]
            exact ⟨_, rfl⟩

/-- C7 witness: with the `openai` package unavailable, `chat` fails with
`LLMUnavailable` and the call site substitutes the fixed fallback. -/
theorem C7_witness :
    llmReplyBranch ⟨false, none, .noChoices⟩ [] = .ok fallbackReply :=
  C7_theorem.2.2.1 ⟨false, none, .noChoices⟩ []
    (.llmUnavailable "openai package not installed") (by rfl)

/-! ## Claim C10 -/

/-- The first (token, bank-key) match over a token list: for the first
token that contains any bank key as a substring, the first such key (with
its question list) in bank order. -/
def firstMatchKey : List String → Option (String × List String)
  | [] => none
  | t :: rest =>
      match BANK.find? (fun kv => occursIn kv.1.toList t.toList) with
      | some kv => some kv
      | none => firstMatchKey rest

/-- Every bank entry carries exactly five questions. -/
lemma bank_lengths : ∀ kv ∈ BANK, kv.2.length = 5 := by decide

/-- A first match is a bank entry. -/
lemma firstMatchKey_mem {ts : List String} {kv : String × List String}
    (h : firstMatchKey ts = some kv) : kv ∈ BANK := by
  induction ts with
  | nil => exact Option.noConfusion h
  | cons t rest ih =>
      rw [firstMatchKey] at h
      cases hf : BANK.find? (fun kv => occursIn kv.1.toList t.toList) with
      | some kv' =>
          rw [hf] at h
          cases h
          exact List.mem_of_find?_eq_some hf
      | none =>
          rw [hf] at h
          exact ih h

/-- With an empty `seen` set the loop find matches `firstMatchKey`. -/
lemma find_empty_seen (t : String) :
    BANK.find? (fun kv => occursIn kv.1.toList t.toList &&
        !(([] : List String).contains kv.1)) =
    BANK.find? (fun kv => occursIn kv.1.toList t.toList) := by
  have h : (fun kv : String × List String =>
      occursIn kv.1.toList t.toList && !(([] : List String).contains kv.1)) =
      fun kv => occursIn kv.1.toList t.toList := funext fun kv => by simp
  rw [h]

/-- Until the first match, the loop carries empty `seen` and empty `out`;
at the first match it collects that technology's five questions and breaks
on the cap. -/
lemma fbLoop_firstMatch :
    ∀ (ts : List String) (kv : String × List String),
      firstMatchKey ts = some kv → fbLoop 5 ts [] [] = kv.2 := by
  intro ts
  induction ts with
  | nil => intro kv h; exact Option.noConfusion h
  | cons t rest ih =>
      intro kv h
      rw [firstMatchKey] at h
      rw [fbLoop, find_empty_seen]
      cases hf : BANK.find? (fun kv => occursIn kv.1.toList t.toList) with
      | some kv' =>
          rw [hf] at h
          cases h
          have hlen : kv.2.length = 5 :=
            bank_lengths kv (List.mem_of_find?_eq_some hf)
          have htake : kv.2.take 5 = kv.2 := List.take_of_length_le hlen.le
          simp [htake, hlen]
      | none =>
          rw [hf] at h
          simpa using ih kv h

/-- C10: whenever some comma-separated token of the tech stack contains a
bank key as a substring, `generate_fallback_questions` with the default cap
of 5 returns exactly the canned 5-question list of the single
first-matched technology (token order first, bank order within a token);
later tokens and later-matching technologies contribute nothing, because
the first match already fills the cap. -/
theorem C10_theorem :
    ∀ (tech_stack : String) (kv : String × List String),
      firstMatchKey (techTokens tech_stack) = some kv →
      generate_fallback_questions tech_stack 5 = kv.2 := by
  intro ts kv h
  have h1 := fbLoop_firstMatch _ kv h
  have hlen : kv.2.length = 5 := bank_lengths kv (firstMatchKey_mem h)
  have hne : kv.2.isEmpty = false := by
    cases hkv : kv.2 with
    | nil => rw [hkv] at hlen; exact Nat.noConfusion hlen
    | cons a l => rfl
  rw [generate_fallback_questions, h1]
  simp [hne, List.take_of_length_le hlen.le]

/-- C10 witness: on "R, Django apps" the first token matches nothing, the
second matches the django registry, and exactly the five django questions
are returned. -/
theorem C10_witness :
    generate_fallback_questions "R, Django apps" 5 =
      (("django", bankQuestions "django") : String × List String).2 :=
  C10_theorem "R, Django apps" ("django", bankQuestions "django") (by decide)

/-! ## Claim C4 -/

/-- Profile accumulated by the main app over a whole session: fold the
per-turn accumulation loop over the turn texts, starting from the empty
candidate. -/
def runAccum (inputs : List String) : Candidate :=
  inputs.foldl accumulate emptyCandidate

/-- Field-wise monotonicity relation: every field set in `a` holds the same
value in `b`. -/
def sameSetFields (a b : Candidate) : Prop :=
  (∀ v, a.full_name = some v → b.full_name = some v) ∧
  (∀ v, a.email = some v → b.email = some v) ∧
  (∀ v, a.phone = some v → b.phone = some v) ∧
  (∀ q : ℚ, a.experience = some q → b.experience = some q) ∧
  (∀ v, a.position = some v → b.position = some v) ∧
  (∀ v, a.location = some v → b.location = some v) ∧
  (∀ v, a.tech_stack = some v → b.tech_stack = some v)

/-- `String.isEmpty` agrees with emptiness of the character list. -/
lemma isEmpty_mk (l : List Char) : (String.mk l).isEmpty = l.isEmpty := by
  cases l with
  | nil => rfl
  | cons c t =>
      simp [String.isEmpty, String.Pos.ext_iff]
      have := Char.utf8Size_pos c
      omega

/-- `String.isEmpty` through `toList`. -/
lemma isEmpty_toList (s : String) : s.isEmpty = s.toList.isEmpty :=
  isEmpty_mk s.toList

/-- Title-casing never produces the empty list from a non-empty one. -/
lemma pyTitleGo_ne_nil {b : Bool} {l : List Char} (h : l ≠ []) :
    pyTitleGo b l ≠ [] := by
  cases l with
  | nil => exact absurd rfl h
  | cons c t =>
      rw [pyTitleGo]
      split_ifs <;> simp

/-- Title-casing a non-empty string yields a non-empty string. -/
lemma pyTitle_isEmpty_false {p : String} (hp : p.isEmpty = false) :
    (pyTitle p).isEmpty = false := by
  rw [isEmpty_toList] at hp
  have hne : p.toList ≠ [] := by
    intro h; rw [h] at hp; exact Bool.noConfusion hp
  rw [pyTitle, isEmpty_mk]
  cases hl : pyTitleGo false p.toList with
  | nil => exact absurd hl (pyTitleGo_ne_nil hne)
  | cons a l2 => rfl

/-- A successful non-empty-needle substring test needs a non-empty
haystack. -/
lemma occursIn_ne_nil {n h : List Char} (hn : n ≠ [])
    (ho : occursIn n h = true) : h ≠ [] := by
  intro he
  subst he
  cases n with
  | nil => exact hn rfl
  | cons a m => rw [occursIn, leadsWith] at ho; exact Bool.noConfusion ho

/-- A stripped text containing a blank title-cases to a truthy name. -/
lemma title_truthy {t : String} (h : pyIn " " (pyStrip t) = true) :
    truthy (some (pyTitle (pyStrip t))) = true := by
  rw [pyIn] at h
  have hne : (pyStrip t).toList ≠ [] :=
    occursIn_ne_nil (by simp) h
  have hse : (pyStrip t).isEmpty = false := by
    rw [isEmpty_toList]
    cases hl : (pyStrip t).toList with
    | nil => exact absurd hl hne
    | cons a l2 => rfl
  simp [truthy, pyTitle_isEmpty_false hse]

/-- `enrichEmail` as a single record update. -/
lemma enrichEmail_eq (c : Candidate) (e : Option String) :
    enrichEmail c e = { c with email := if truthy e then e else c.email } := by
  rw [enrichEmail]; split_ifs <;> rfl

/-- `enrichPhone` as a single record update. -/
lemma enrichPhone_eq (c : Candidate) (p : Option String) :
    enrichPhone c p = { c with phone := if truthy p then p else c.phone } := by
  rw [enrichPhone]; split_ifs <;> rfl

/-- `enrichExp` as a single record update. -/
lemma enrichExp_eq (c : Candidate) (x : Option ℚ) :
    enrichExp c x = { c with experience := if x.isSome then x else c.experience } := by
  rw [enrichExp]; split_ifs <;> rfl

/-- `enrichPosition` as a single record update. -/
lemma enrichPosition_eq (c : Candidate) (t l : String) :
    enrichPosition c t l = { c with position :=
      (if positionKeywords1.any (fun k => pyIn k l) then
        (if truthy c.position then c.position else some t)
      else c.position) } := by
  rw [enrichPosition]; split_ifs <;> rfl

/-- `enrichTech` as a single record update. -/
lemma enrichTech_eq (c : Candidate) (t l : String) :
    enrichTech c t l = { c with tech_stack :=
      (if pyIn "tech stack" l || techKeywords1.any (fun k => pyIn k l) then
        (if truthy c.tech_stack then c.tech_stack else some t)
      else c.tech_stack) } := by
  rw [enrichTech]; split_ifs <;> rfl

/-- `enrichLocation` as a single record update. -/
lemma enrichLocation_eq (c : Candidate) (t l : String) :
    enrichLocation c t l = { c with location :=
      (if pyIn "location" l || locationKeywords1.any (fun k => pyIn k l) then
        (if truthy c.location then c.location else some t)
      else c.location) } := by
  rw [enrichLocation]; split_ifs <;> rfl

/-- `enrichName` as a single record update. -/
lemma enrichName_eq (c : Candidate) (t : String) (e p : Option String) :
    enrichName c t e p = { c with full_name :=
      (if pyIn " " (pyStrip t) && !truthy c.full_name && !truthy e && !truthy p then
        some (pyTitle (pyStrip t))
      else c.full_name) } := by
  rw [enrichName]; split_ifs <;> rfl

/-- `enrich_candidate_from_text` computed field-wise: each field depends
only on the turn text and its own previous value. -/
lemma enrich_eq (c : Candidate) (t : String) :
    enrich_candidate_from_text c t = {
      full_name := (if pyIn " " (pyStrip t) && !truthy c.full_name &&
          !truthy (extract_email t) && !truthy (extract_phone t) then
          some (pyTitle (pyStrip t)) else c.full_name),
      email := (if truthy (extract_email t) then extract_email t else c.email),
      phone := (if truthy (extract_phone t) then extract_phone t else c.phone),
      experience := (if (extract_experience t).isSome then extract_experience t
        else c.experience),
      position := (if positionKeywords1.any (fun k => pyIn k (pyLower t)) then
          (if truthy c.position then c.position else some t) else c.position),
      location := (if pyIn "location" (pyLower t) ||
            locationKeywords1.any (fun k => pyIn k (pyLower t)) then
          (if truthy c.location then c.location else some t) else c.location),
      tech_stack := (if pyIn "tech stack" (pyLower t) ||
            techKeywords1.any (fun k => pyIn k (pyLower t)) then
          (if truthy c.tech_stack then c.tech_stack else some t)
        else c.tech_stack) } := by
  rw [enrich_candidate_from_text, enrichEmail_eq, enrichPhone_eq, enrichExp_eq,
    enrichPosition_eq, enrichTech_eq, enrichLocation_eq, enrichName_eq]

/-- Re-applying the same turn text to the step1 enrichment changes nothing
(for an actual turn, which is non-empty). -/
lemma enrich_idem (c : Candidate) (t : String) (ht : t.isEmpty = false) :
    enrich_candidate_from_text (enrich_candidate_from_text c t) t =
      enrich_candidate_from_text c t := by
  have htr : truthy (some t) = true := by
    simp [truthy, ht]
  rw [enrich_eq c t, enrich_eq]
  simp only [Candidate.mk.injEq]
  refine ⟨?_, ?_, ?_, ?_, ?_, ?_, ?_⟩
  · by_cases hS : pyIn " " (pyStrip t) = true
    · by_cases hF : truthy c.full_name = true
      · simp [hS, hF]
      · by_cases hE : truthy (extract_email t) = true
        · simp [hS, hE]
        · by_cases hP : truthy (extract_phone t) = true
          · simp [hS, hP]
          · simp [hS, hF, hE, hP, title_truthy hS]
    · simp [hS]
  · by_cases hE : truthy (extract_email t) = true <;> simp [hE]
  · by_cases hP : truthy (extract_phone t) = true <;> simp [hP]
  · by_cases hX : (extract_experience t).isSome = true <;> simp [hX]
  · by_cases hK : positionKeywords1.any (fun k => pyIn k (pyLower t)) = true
    · by_cases hp : truthy c.position = true
      · simp [hK, hp]
      · simp [hK, hp, htr]
    · simp [hK]
  · by_cases hK : (pyIn "location" (pyLower t) ||
        locationKeywords1.any (fun k => pyIn k (pyLower t))) = true
    · by_cases hp : truthy c.location = true
      · simp [hK, hp]
      · simp [hK, hp, htr]
    · simp [hK]
  · by_cases hK : (pyIn "tech stack" (pyLower t) ||
        techKeywords1.any (fun k => pyIn k (pyLower t))) = true
    · by_cases hp : truthy c.tech_stack = true
      · simp [hK, hp]
      · simp [hK, hp, htr]
    · simp [hK]

/-- A non-empty email is never reassigned by a piece: the assignment is
guarded by `not cand.email`. -/
lemma processPiece_email {c : Candidate} {p : String}
    (h : truthy c.email = true) : (processPiece c p).email = c.email := by
  simp only [processPiece]
  split_ifs <;> first | rfl | simp_all

/-- A non-empty phone is never reassigned by a piece. -/
lemma processPiece_phone {c : Candidate} {p : String}
    (h : truthy c.phone = true) : (processPiece c p).phone = c.phone := by
  simp only [processPiece]
  split_ifs <;> first | rfl | simp_all

/-- A present experience is never reassigned by a piece (guard
`cand.experience is None`). -/
lemma processPiece_experience {c : Candidate} {p : String}
    (h : c.experience.isSome = true) :
    (processPiece c p).experience = c.experience := by
  simp only [processPiece]
  split_ifs <;> first | rfl | simp_all

/-- A non-empty position is never reassigned by a piece. -/
lemma processPiece_position {c : Candidate} {p : String}
    (h : truthy c.position = true) : (processPiece c p).position = c.position := by
  simp only [processPiece]
  split_ifs <;> first | rfl | simp_all

/-- A non-empty location is never reassigned by a piece. -/
lemma processPiece_location {c : Candidate} {p : String}
    (h : truthy c.location = true) : (processPiece c p).location = c.location := by
  simp only [processPiece]
  split_ifs <;> first | rfl | simp_all

/-- A non-empty tech stack is never reassigned by a piece. -/
lemma processPiece_tech {c : Candidate} {p : String}
    (h : truthy c.tech_stack = true) :
    (processPiece c p).tech_stack = c.tech_stack := by
  simp only [processPiece]
  split_ifs <;> first | rfl | simp_all

/-- A non-empty full name is never reassigned by a piece. -/
lemma processPiece_full_name {c : Candidate} {p : String}
    (h : truthy c.full_name = true) :
    (processPiece c p).full_name = c.full_name := by
  simp only [processPiece]
  split_ifs <;> first | rfl | simp_all

/-- Folding the piece loop preserves any field whose preservation predicate
is stable under one piece. -/
lemma foldl_preserves {β : Type} (f : Candidate → β) (pred : β → Bool)
    (hstep : ∀ c p, pred (f c) = true → f (processPiece c p) = f c) :
    ∀ (ps : List String) (c : Candidate), pred (f c) = true →
      f (ps.foldl processPiece c) = f c := by
  intro ps
  induction ps with
  | nil => intro c _; rfl
  | cons p ps ih =>
      intro c h
      rw [List.foldl_cons]
      have h1 := hstep c p h
      rw [ih _ (by rw [h1]; exact h), h1]

/-- Accumulation preserves a non-empty email. -/
lemma accumulate_email {c : Candidate} {i : String}
    (h : truthy c.email = true) : (accumulate c i).email = c.email :=
  foldl_preserves (fun c => c.email) truthy
    (fun _ _ hh => processPiece_email hh) (turnPieces i) c h

/-- Accumulation preserves a non-empty phone. -/
lemma accumulate_phone {c : Candidate} {i : String}
    (h : truthy c.phone = true) : (accumulate c i).phone = c.phone :=
  foldl_preserves (fun c => c.phone) truthy
    (fun _ _ hh => processPiece_phone hh) (turnPieces i) c h

/-- Accumulation preserves a present experience. -/
lemma accumulate_experience {c : Candidate} {i : String}
    (h : c.experience.isSome = true) :
    (accumulate c i).experience = c.experience :=
  foldl_preserves (fun c => c.experience) Option.isSome
    (fun _ _ hh => processPiece_experience hh) (turnPieces i) c h

/-- Accumulation preserves a non-empty position. -/
lemma accumulate_position {c : Candidate} {i : String}
    (h : truthy c.position = true) : (accumulate c i).position = c.position :=
  foldl_preserves (fun c => c.position) truthy
    (fun _ _ hh => processPiece_position hh) (turnPieces i) c h

/-- Accumulation preserves a non-empty location. -/
lemma accumulate_location {c : Candidate} {i : String}
    (h : truthy c.location = true) : (accumulate c i).location = c.location :=
  foldl_preserves (fun c => c.location) truthy
    (fun _ _ hh => processPiece_location hh) (turnPieces i) c h

/-- Accumulation preserves a non-empty tech stack. -/
lemma accumulate_tech {c : Candidate} {i : String}
    (h : truthy c.tech_stack = true) :
    (accumulate c i).tech_stack = c.tech_stack :=
  foldl_preserves (fun c => c.tech_stack) truthy
    (fun _ _ hh => processPiece_tech hh) (turnPieces i) c h

/-- Accumulation preserves a non-empty full name. -/
lemma accumulate_full_name {c : Candidate} {i : String}
    (h : truthy c.full_name = true) :
    (accumulate c i).full_name = c.full_name :=
  foldl_preserves (fun c => c.full_name) truthy
    (fun _ _ hh => processPiece_full_name hh) (turnPieces i) c h

/-- A set optional string field that is moreover non-empty. -/
def wfOpt : Option String → Bool
  | none => true
  | some s => !s.isEmpty

/-- Every set string field of the candidate is non-empty (no assignment in
the app ever stores the empty string). -/
def Candidate.wf (c : Candidate) : Bool :=
  wfOpt c.full_name && wfOpt c.email && wfOpt c.phone && wfOpt c.position &&
  wfOpt c.location && wfOpt c.tech_stack

/-- Truthiness gives well-formedness. -/
lemma wfOpt_of_truthy {o : Option String} (h : truthy o = true) :
    wfOpt o = true := by
  cases o with
  | none => rfl
  | some s => exact h

/-- Pieces of a turn are non-empty (the list comprehension filters on
`p.strip()`). -/
lemma turnPieces_nonempty (i : String) :
    ∀ p ∈ turnPieces i, p.isEmpty = false := by
  intro p hp
  rw [turnPieces] at hp
  have h2 := (List.mem_filter.mp hp).2
  simpa using h2

/-- One piece preserves well-formedness. -/
lemma processPiece_wf {c : Candidate} {p : String} (hp : p.isEmpty = false)
    (h : c.wf = true) : (processPiece c p).wf = true := by
  simp only [Candidate.wf, Bool.and_eq_true] at h
  obtain ⟨⟨⟨⟨⟨hn, he⟩, hph⟩, hpo⟩, hl⟩, ht⟩ := h
  simp only [processPiece]
  split_ifs with h1 h2 h3 h4 h5 h6 h7 <;>
    simp only [Candidate.wf, Bool.and_eq_true]
  · refine ⟨⟨⟨⟨⟨hn, wfOpt_of_truthy ?_⟩, hph⟩, hpo⟩, hl⟩, ht⟩
    simp only [Bool.and_eq_true] at h1
    exact h1.1
  · refine ⟨⟨⟨⟨⟨hn, he⟩, wfOpt_of_truthy ?_⟩, hpo⟩, hl⟩, ht⟩
    simp only [Bool.and_eq_true] at h2
    exact h2.1
  · exact ⟨⟨⟨⟨⟨hn, he⟩, hph⟩, hpo⟩, hl⟩, ht⟩
  · exact ⟨⟨⟨⟨⟨hn, he⟩, hph⟩, by simp [wfOpt, hp]⟩, hl⟩, ht⟩
  · exact ⟨⟨⟨⟨⟨hn, he⟩, hph⟩, hpo⟩, hl⟩, by simp [wfOpt, hp]⟩
  · exact ⟨⟨⟨⟨⟨hn, he⟩, hph⟩, hpo⟩, by simp [wfOpt, hp]⟩, ht⟩
  · exact ⟨⟨⟨⟨⟨by simp [wfOpt, pyTitle_isEmpty_false hp], he⟩, hph⟩, hpo⟩, hl⟩, ht⟩
  · exact ⟨⟨⟨⟨⟨hn, he⟩, hph⟩, hpo⟩, hl⟩, ht⟩

/-- The piece fold preserves well-formedness. -/
lemma foldl_wf : ∀ (ps : List String), (∀ p ∈ ps, p.isEmpty = false) →
    ∀ c : Candidate, c.wf = true → (ps.foldl processPiece c).wf = true := by
  intro ps
  induction ps with
  | nil => intro _ c h; exact h
  | cons p ps ih =>
      intro hps c h
      rw [List.foldl_cons]
      exact ih (fun q hq => hps q (List.mem_cons_of_mem p hq)) _
        (processPiece_wf (hps p (List.mem_cons_self p ps)) h)

/-- A turn preserves well-formedness. -/
lemma accumulate_wf {c : Candidate} {i : String} (h : c.wf = true) :
    (accumulate c i).wf = true :=
  foldl_wf (turnPieces i) (turnPieces_nonempty i) c h

/-- Every reachable profile is well-formed. -/
lemma runAccum_wf (inputs : List String) : (runAccum inputs).wf = true := by
  rw [runAccum]
  have hstep : ∀ (is : List String) (c : Candidate), c.wf = true →
      (is.foldl accumulate c).wf = true := by
    intro is
    induction is with
    | nil => intro c h; exact h
    | cons i is ih =>
        intro c h
        rw [List.foldl_cons]
        exact ih _ (accumulate_wf h)
  exact hstep inputs emptyCandidate rfl

/-- C4 (amended): in the main `app.py` accumulation loop every field is
first-non-empty-wins — over any session, a field already set keeps its
exact value through any later turn, and applying the same turn's text a
second time leaves every field set by the first application unchanged.  In
the step1 variant `enrich_candidate_from_text` re-applying the same turn is
likewise harmless, but a later turn overwrites email, phone and experience
unconditionally (see the counterexample), so first-non-empty-wins holds
there only for the other four fields. -/
theorem C4_theorem :
    (∀ (inputs : List String) (input : String),
      sameSetFields (runAccum inputs) (accumulate (runAccum inputs) input)) ∧
    (∀ (inputs : List String) (input : String),
      sameSetFields (accumulate (runAccum inputs) input)
        (accumulate (accumulate (runAccum inputs) input) input)) ∧
    (∀ (c : Candidate) (t : String), t.isEmpty = false →
      enrich_candidate_from_text (enrich_candidate_from_text c t) t =
        enrich_candidate_from_text c t) := by
  have main : ∀ (inputs : List String) (input : String),
      sameSetFields (runAccum inputs) (accumulate (runAccum inputs) input) := by
    intro inputs input
    have hw := runAccum_wf inputs
    simp only [Candidate.wf, Bool.and_eq_true] at hw
    obtain ⟨⟨⟨⟨⟨hn, he⟩, hph⟩, hpo⟩, hl⟩, ht⟩ := hw
    refine ⟨?_, ?_, ?_, ?_, ?_, ?_, ?_⟩
    · intro v hv
      have htr : truthy (runAccum inputs).full_name = true := by
        rw [hv] at hn ⊢; exact hn
      rw [accumulate_full_name htr]; exact hv
    · intro v hv
      have htr : truthy (runAccum inputs).email = true := by
        rw [hv] at he ⊢; exact he
      rw [accumulate_email htr]; exact hv
    · intro v hv
      have htr : truthy (runAccum inputs).phone = true := by
        rw [hv] at hph ⊢; exact hph
      rw [accumulate_phone htr]; exact hv
    · intro q hq
      have hs : (runAccum inputs).experience.isSome = true := by
        rw [hq]; rfl
      rw [accumulate_experience hs]; exact hq
    · intro v hv
      have htr : truthy (runAccum inputs).position = true := by
        rw [hv] at hpo ⊢; exact hpo
      rw [accumulate_position htr]; exact hv
    · intro v hv
      have htr : truthy (runAccum inputs).location = true := by
        rw [hv] at hl ⊢; exact hl
      rw [accumulate_location htr]; exact hv
    · intro v hv
      have htr : truthy (runAccum inputs).tech_stack = true := by
        rw [hv] at ht ⊢; exact ht
      rw [accumulate_tech htr]; exact hv
  refine ⟨main, ?_, fun c t ht => enrich_idem c t ht⟩
  intro inputs input
  have hra : runAccum (inputs ++ [input]) = accumulate (runAccum inputs) input := by
    rw [runAccum, runAccum, List.foldl_append]
    rfl
  have h := main (inputs ++ [input]) input
  rw [hra] at h
  exact h

/-- C4 as frozen is false for the step1 accumulation:
`enrich_candidate_from_text` overwrites a set email with a different value
on a later turn (`if email: c.email = email` has no emptiness guard). -/
theorem C4_counterexample :
    (enrich_candidate_from_text emptyCandidate "a@x.com").email = some "a@x.com" ∧
    (enrich_candidate_from_text
        (enrich_candidate_from_text emptyCandidate "a@x.com") "b@y.com").email =
      some "b@y.com" ∧
    ("b@y.com" : String) ≠ "a@x.com" :=
  ⟨by decide, by decide, by decide⟩

/-- C4 witness: a later turn carrying a different email does not overwrite
the one already recorded by the main app, and re-applying a turn to the
step1 enrichment changes nothing. -/
theorem C4_witness :
    (accumulate (runAccum ["john@x.com"]) "other@y.com").email = some "john@x.com" ∧
    enrich_candidate_from_text
        (enrich_candidate_from_text emptyCandidate "a@x.com") "a@x.com" =
      enrich_candidate_from_text emptyCandidate "a@x.com" :=
  ⟨(C4_theorem.1 ["john@x.com"] "other@y.com").2.1 "john@x.com" (by decide),
   C4_theorem.2.2 emptyCandidate "a@x.com" (by decide)⟩

/-! ## Claim C5 -/

/-- `next_recruiter_question` returns none exactly on complete profiles
(both treat string fields by truthiness and experience by presence). -/
lemma nrq_none_iff (c : Candidate) :
    next_recruiter_question c = none ↔ c.is_complete = true := by
  rw [next_recruiter_question, Candidate.is_complete]
  cases hn : truthy c.full_name <;> cases he : truthy c.email <;>
    cases hph : truthy c.phone <;> cases c.experience <;>
    cases hpo : truthy c.position <;> cases hl : truthy c.location <;>
    cases ht : truthy c.tech_stack <;>
    simp [hn, he, hph, hpo, hl, ht]

/-- Number of tech-question turns in a trace. -/
def countTech (outs : List (TurnOut × Candidate)) : Nat :=
  outs.countP (fun p => decide (p.1 = TurnOut.techQuestions))

/-- Counting tech-question turns through a cons. -/
lemma countTech_cons (p : TurnOut × Candidate) (l : List (TurnOut × Candidate)) :
    countTech (p :: l) = countTech l +
      (if p.1 = TurnOut.techQuestions then 1 else 0) := by
  rw [countTech, countTech, List.countP_cons]
  by_cases h : p.1 = TurnOut.techQuestions <;> simp [h]

/-- What one processed turn guarantees: a tech-question turn only fires
with the one-shot flag down, flips it, and only on a complete profile; and
the flag never goes back down. -/
lemma handleTurn_tech {st st' : AppState} {input : String} {env : LlmEnv}
    {out : TurnOut} (h : handleTurn st input env = .ok (st', out)) :
    (out = TurnOut.techQuestions → st.asked_tech_questions = false ∧
      st'.asked_tech_questions = true ∧ st'.candidate.is_complete = true) ∧
    (st.asked_tech_questions = true → st'.asked_tech_questions = true) := by
  simp only [handleTurn] at h
  split at h
  · cases h
    exact ⟨fun h' => TurnOut.noConfusion h', fun ha => ha⟩
  · split at h
    · cases h
      exact ⟨fun h' => TurnOut.noConfusion h', fun ha => ha⟩
    · split at h
      · cases h
        exact ⟨fun h' => TurnOut.noConfusion h', fun ha => ha⟩
      · rename_i hnrq
        split at h
        · rename_i hasked
          cases h
          have hfalse : st.asked_tech_questions = false := by
            cases hv : st.asked_tech_questions with
            | false => rfl
            | true => rw [hv] at hasked; exact Bool.noConfusion hasked
          refine ⟨fun _ => ⟨hfalse, rfl, ?_⟩, fun _ => rfl⟩
          exact (nrq_none_iff _).mp hnrq
        · split at h
          · cases h
            exact ⟨fun h' => TurnOut.noConfusion h', fun ha => ha⟩
          · exact Except.noConfusion h

/-- Trace invariant: with the flag already up no tech-question turn ever
fires again; with the flag down at most one fires; and every tech-question
turn happens on a complete profile. -/
lemma runTrace_props :
    ∀ (turns : List (String × LlmEnv)) (st stf : AppState)
      (outs : List (TurnOut × Candidate)),
      runTrace st turns = .ok (stf, outs) →
      countTech outs ≤ (if st.asked_tech_questions = true then 0 else 1) ∧
      (∀ p ∈ outs, p.1 = TurnOut.techQuestions → p.2.is_complete = true) := by
  intro turns
  induction turns with
  | nil =>
      intro st stf outs h
      rw [runTrace] at h
      cases h
      exact ⟨by simp [countTech], fun p hp => absurd hp (List.not_mem_nil p)⟩
  | cons te rest ih =>
      intro st stf outs h
      rw [runTrace] at h
      cases ht : handleTurn st te.1 te.2 with
      | error e => rw [ht] at h; exact Except.noConfusion h
      | ok r =>
          obtain ⟨st1, out⟩ := r
          rw [ht] at h
          dsimp only at h
          cases hr : runTrace st1 rest with
          | error e => rw [hr] at h; exact Except.noConfusion h
          | ok rr =>
              obtain ⟨st2, outs'⟩ := rr
              rw [hr] at h
              dsimp only at h
              cases h
              obtain ⟨hb, hcomp⟩ := ih st1 stf outs' hr
              have hturn := handleTurn_tech ht
              constructor
              · rw [countTech_cons]
                by_cases hout : out = TurnOut.techQuestions
                · obtain ⟨hf, hT, -⟩ := hturn.1 hout
                  rw [hT] at hb
                  have hb0 : countTech outs' = 0 := by simpa using hb
                  simp [hout, hf, hb0]
                · cases hst : st.asked_tech_questions with
                  | true =>
                      have hT := hturn.2 hst
                      rw [hT] at hb
                      have hb0 : countTech outs' = 0 := by simpa using hb
                      simp [hout, hb0]
                  | false =>
                      have hb1 : countTech outs' ≤ 1 := by
                        cases hst1 : st1.asked_tech_questions <;>
                          rw [hst1] at hb <;> simp at hb <;> omega
                      simp [hout]
                      omega
              · intro p hp
                rcases List.mem_cons.mp hp with hp | hp
                · rw [hp]
                  intro hq
                  exact (hturn.1 hq).2.2
                · exact hcomp p hp

/-- C5: over every session (any sequence of turns from the initial state,
under any OpenAI behaviour), the tailored tech-question message is produced
at most once — the one-shot flag, once flipped, never re-fires — and it is
produced only on a turn at which all seven profile fields are set (the
profile the turn leaves behind is complete). -/
theorem C5_theorem :
    ∀ (turns : List (String × LlmEnv)) (stf : AppState)
      (outs : List (TurnOut × Candidate)),
      runTrace initialState turns = .ok (stf, outs) →
      countTech outs ≤ 1 ∧
      ∀ p ∈ outs, p.1 = TurnOut.techQuestions → p.2.is_complete = true := by
  intro turns stf outs h
  obtain ⟨hb, hc⟩ := runTrace_props turns initialState stf outs h
  refine ⟨?_, hc⟩
  simpa using hb

/-- C5 witness: the theorem applied to a concrete one-turn trace. -/
theorem C5_witness :
    countTech [(TurnOut.skipped, emptyCandidate)] ≤ 1 ∧
    ∀ p ∈ [(TurnOut.skipped, emptyCandidate)], p.1 = TurnOut.techQuestions →
      p.2.is_complete = true :=
  C5_theorem [("", ⟨false, none, ApiOutcome.noChoices⟩)] initialState
    [(TurnOut.skipped, emptyCandidate)] rfl

end TalentScout
